import Mathlib

/-!
Shallow embedding of the HTTP client core of the spreaker-and-go repository
(file internal/api/client.go): client construction, URL building, request
headers, the response envelope and error model, the shared response handler,
and the generic pagination helper.

Modelling conventions:
* HTTP response bodies arrive as raw bytes; `json.Unmarshal` either fails
  (invalid JSON) or yields a JSON value.  We model a body as `Option Json`,
  where `none` stands for bytes that are not valid JSON, and `some j` for
  bytes whose parsed JSON value is `j`.  A `json.RawMessage` field is
  modelled as `Option Json` (`none` = the nil RawMessage of a missing key).
* `time.Duration` is an integer number of nanoseconds, modelled as `Int`.
* The network itself is abstracted: the response handler takes the HTTP
  status code and the (parsed) body as inputs; upload helpers take an
  explicit network function and report how many times it was invoked.
* Go `json.Unmarshal` into the concrete structs of client.go is modelled
  field by field following the encoding/json semantics at those call sites:
  a missing key leaves the zero value, a JSON null is a no-op, and a type
  mismatch makes Unmarshal return a non-nil error (client.go discards all
  partially decoded data in that case, so the model returns `none`).
-/

namespace Spreaker

/-- JSON values, the abstraction of parsed response bodies. -/
inductive Json where
  | null : Json
  | bool : Bool → Json
  | num : Int → Json
  | str : String → Json
  | arr : List Json → Json
  | obj : List (String × Json) → Json
  deriving Repr

/-- Field lookup in a decoded JSON object.  encoding/json lets a later
duplicate key overwrite an earlier one, hence the left fold. -/
def lookupField (kvs : List (String × Json)) (key : String) : Option Json :=
  kvs.foldl (fun acc kv => if kv.1 = key then some kv.2 else acc) none

/-- The Go http.Client, reduced to the one field client.go configures. -/
structure HTTPClient where
  Timeout : Int
  deriving Repr, DecidableEq

/-- Default values for the client (client.go, const block). -/
def DefaultBaseURL : String := "https://api.spreaker.com"

/-- Default API version path segment. -/
def DefaultAPIVersion : String := "v2"

/-- Default timeout: 30 * time.Second, in nanoseconds. -/
def DefaultTimeout : Int := 30 * 1000000000

/-- The Client struct of client.go. -/
structure Client where
  BaseURL : String
  APIVersion : String
  Token : String
  HTTPClient : HTTPClient
  UserAgent : String
  deriving Repr, DecidableEq

/-- NewClient creates a new Spreaker API client with the given OAuth token. -/
def NewClient (token : String) : Client :=
  { BaseURL := DefaultBaseURL
    APIVersion := DefaultAPIVersion
    Token := token
    HTTPClient := { Timeout := DefaultTimeout }
    UserAgent := "spreaker-cli/1.0" }

/-- NewClientWithOptions creates a client with custom configuration. -/
def NewClientWithOptions (token baseURL : String) (timeout : Int) : Client :=
  let client := NewClient token
  let client := if baseURL ≠ "" then { client with BaseURL := baseURL } else client
  if timeout > 0 then
    { client with HTTPClient := { client.HTTPClient with Timeout := timeout } }
  else client

/-- APIError represents an error response from the Spreaker API. -/
structure APIError where
  StatusCode : Int
  Code : Int
  Messages : List String
  deriving Repr, DecidableEq

/-- IsNotFound returns true if the error is a 404 Not Found. -/
def APIError.IsNotFound (e : APIError) : Bool :=
  e.StatusCode == 404

/-- IsUnauthorized returns true if the error is a 401 Unauthorized. -/
def APIError.IsUnauthorized (e : APIError) : Bool :=
  e.StatusCode == 401

/-- IsRateLimited returns true if the error is a 429 Too Many Requests. -/
def APIError.IsRateLimited (e : APIError) : Bool :=
  e.StatusCode == 429

/-- buildURL concatenates BaseURL, a slash, APIVersion and the path,
exactly as fmt.Sprintf with format string percent-s slash percent-s
percent-s does in client.go. -/
def Client.buildURL (c : Client) (path : String) : String :=
  let b := c.BaseURL
  let v := c.APIVersion
  s!"{b}/{v}{path}"

/-- One multipart form body as assembled by PostFormWithFile: the file part
first (field name, base file name, contents as bytes), then the other
fields.  The random multipart boundary string is abstracted away. -/
structure MultipartForm where
  fileField : String
  fileName : String
  fileContents : List Nat
  fields : List (String × String)
  deriving Repr

/-- Request bodies the verb helpers of client.go can attach. -/
inductive RequestBody where
  | jsonValue : Json → RequestBody
  | formOnly : List (String × String) → RequestBody
  | multipart : MultipartForm → RequestBody
  deriving Repr

/-- An outgoing http.Request, reduced to what client.go sets on it. -/
structure Request where
  method : String
  url : String
  headers : List (String × String)
  body : Option RequestBody
  deriving Repr

/-- Header.Set of net/http: deletes every entry for the key, then stores the
single new value.  Headers are a list of key-value pairs. -/
def headerSet (hs : List (String × String)) (key value : String) :
    List (String × String) :=
  (hs.filter fun p => p.1 != key) ++ [(key, value)]

/-- Header.Get of net/http: the first value stored for the key, `none` when
the header is absent. -/
def headerGet : List (String × String) → String → Option String
  | [], _ => none
  | (k, v) :: rest, key => if k = key then some v else headerGet rest key

/-- newRequest creates a new HTTP request with common headers set
(client.go lines 127-143).  The http.NewRequest failure branch (malformed
method or URL) is outside the model; all claims quantify over requests that
were built. -/
def Client.newRequest (c : Client) (method urlStr : String)
    (body : Option RequestBody) : Request :=
  let req : Request := { method := method, url := urlStr, headers := [], body := body }
  let req := { req with headers := headerSet req.headers "User-Agent" c.UserAgent }
  let req := { req with headers := headerSet req.headers "Accept" "application/json" }
  if c.Token ≠ "" then
    { req with headers := headerSet req.headers "Authorization" ("Bearer " ++ c.Token) }
  else
    req

/-- Models json.Unmarshal of a body into the apiResponse struct
(one field, Response json.RawMessage with tag "response").  Succeeds only
on a JSON object or null; the result is the raw "response" value, `none`
standing for the nil RawMessage left by a missing key or a null input. -/
def unmarshalApiResponse : Json → Option (Option Json)
  | Json.obj kvs => some (lookupField kvs "response")
  | Json.null => some none
  | _ => none

/-- Models json.Unmarshal of a JSON value into a Go []string: an array of
strings (a null element is a no-op leaving the zero value "") or null
(leaving the nil slice). -/
def unmarshalStringList : Json → Option (List String)
  | Json.arr xs =>
    xs.mapM fun j =>
      match j with
      | Json.str s => some s
      | Json.null => some ""
      | _ => none
  | Json.null => some []
  | _ => none

/-- Models json.Unmarshal of a JSON value into the anonymous inner struct
of errorResponse, fields Messages []string (tag "messages") and Code int
(tag "code"). -/
def unmarshalErrorObj : Json → Option (Int × List String)
  | Json.null => some (0, [])
  | Json.obj kvs =>
    let code :=
      match lookupField kvs "code" with
      | none => some 0
      | some (Json.num n) => some n
      | some Json.null => some 0
      | some _ => none
    let msgs :=
      match lookupField kvs "messages" with
      | none => some []
      | some j => unmarshalStringList j
    match code, msgs with
    | some c, some m => some (c, m)
    | _, _ => none
  | _ => none

/-- Models json.Unmarshal of a JSON value into the errorResponse struct
(one field, Error, tag "error"). -/
def unmarshalErrorResponse : Json → Option (Int × List String)
  | Json.null => some (0, [])
  | Json.obj kvs =>
    match lookupField kvs "error" with
    | none => some (0, [])
    | some j => unmarshalErrorObj j
  | _ => none

/-- parseErrorResponse extracts error information from an API error
response (client.go lines 185-199).  The APIError starts with only the
status code set; the Code and Messages fields are filled in only when both
the outer apiResponse unmarshal and the inner errorResponse unmarshal
succeed, and stay at their zero values (0, empty) otherwise.  The function
is total: no body can make it fail. -/
def parseErrorResponse (statusCode : Int) (body : Option Json) : APIError :=
  let apiErr : APIError := { StatusCode := statusCode, Code := 0, Messages := [] }
  match body with
  | none => apiErr
  | some j =>
    match unmarshalApiResponse j with
    | none => apiErr
    | some none => apiErr
    | some (some inner) =>
      match unmarshalErrorResponse inner with
      | none => apiErr
      | some (code, msgs) => { apiErr with Code := code, Messages := msgs }

/-- The failure modes of the client core.  `api` wraps the typed *APIError;
every other constructor corresponds to one fmt.Errorf site in client.go and
is therefore a plain error value, not an APIError. -/
inductive ClientError where
  | api : APIError → ClientError
  | malformedEnvelope : ClientError
  | payloadDecode : ClientError
  | paginatedDecode : ClientError
  | itemsDecode : ClientError
  | fileOpen : ClientError
  deriving Repr, DecidableEq

/-- Whether a ClientError is the typed API error. -/
def ClientError.isAPIError : ClientError → Bool
  | .api _ => true
  | _ => false

/-- The shared response handler, Client.do of client.go lines 147-182
(named doRequest here because do is a Lean keyword).  The network exchange
is abstracted into its outcome, the status code and the body; the
caller-supplied result pointer becomes the flag wantResult (false models
passing nil) together with the caller-shape decode dec, which models
json.Unmarshal of the raw inner payload into the result value (`none` on a
decode failure).  Flow, in source order: status codes at least 400 go to
parseErrorResponse; a nil result returns success immediately; otherwise the
outer wrapper is parsed (failure: malformedEnvelope, the first fmt.Errorf)
and the inner payload is decoded (failure: payloadDecode, the second
fmt.Errorf; a nil Response RawMessage also fails there). -/
def doRequest {α : Type} (dec : Json → Option α) (wantResult : Bool)
    (statusCode : Int) (body : Option Json) : Except ClientError (Option α) :=
  if statusCode ≥ 400 then
    .error (.api (parseErrorResponse statusCode body))
  else if wantResult = false then
    .ok none
  else
    match body with
    | none => .error .malformedEnvelope
    | some j =>
      match unmarshalApiResponse j with
      | none => .error .malformedEnvelope
      | some none => .error .payloadDecode
      | some (some inner) =>
        match dec inner with
        | none => .error .payloadDecode
        | some v => .ok (some v)

/-- PaginatedResult holds a page of results plus the URL for the next page. -/
structure PaginatedResult (α : Type) where
  Items : List α
  NextURL : String
  HasMore : Bool

/-- Models json.Unmarshal of a JSON value into the paginatedResponse struct,
fields Items json.RawMessage (tag "items") and NextURL string (tag
"next_url").  A non-string, non-null "next_url" is a type mismatch and
fails the whole unmarshal. -/
def unmarshalPaginatedResponse : Json → Option (Option Json × String)
  | Json.null => some (none, "")
  | Json.obj kvs =>
    match lookupField kvs "next_url" with
    | none => some (lookupField kvs "items", "")
    | some Json.null => some (lookupField kvs "items", "")
    | some (Json.str s) => some (lookupField kvs "items", s)
    | some _ => none
  | _ => none

/-- Models json.Unmarshal of the raw Items bytes into a Go slice []T with
element decode decItem: the nil RawMessage fails, null leaves the nil
slice, an array decodes elementwise, anything else is a type mismatch. -/
def unmarshalItems {α : Type} (decItem : Json → Option α) :
    Option Json → Option (List α)
  | none => none
  | some Json.null => some []
  | some (Json.arr xs) => xs.mapM decItem
  | some _ => none

/-- GetPaginated performs a GET request and parses a paginated response
(client.go lines 354-405), abstracted at the exchange outcome exactly like
doRequest.  decItem is the element decode for the item type T.  In source
order: error statuses go to parseErrorResponse; then the outer wrapper, the
paginatedResponse and the items list are unmarshalled in turn, each failure
surfacing its own fmt.Errorf; on success HasMore is the Boolean
NextURL != "" and NextURL is the decoded next_url string, unmodified. -/
def GetPaginated {α : Type} (decItem : Json → Option α)
    (statusCode : Int) (body : Option Json) :
    Except ClientError (PaginatedResult α) :=
  if statusCode ≥ 400 then
    .error (.api (parseErrorResponse statusCode body))
  else
    match body with
    | none => .error .malformedEnvelope
    | some j =>
      match unmarshalApiResponse j with
      | none => .error .malformedEnvelope
      | some none => .error .paginatedDecode
      | some (some inner) =>
        match unmarshalPaginatedResponse inner with
        | none => .error .paginatedDecode
        | some (itemsRaw, nextURL) =>
          match unmarshalItems decItem itemsRaw with
          | none => .error .itemsDecode
          | some items =>
            .ok { Items := items, NextURL := nextURL, HasMore := nextURL != "" }

/-- filepath.Base of path/filepath: empty input gives ".", otherwise strip
trailing slashes, take everything after the last slash, and give "/" when
nothing is left (the all-slashes input). -/
def filepathBase (p : String) : String :=
  if p = "" then "."
  else
    let stripped := ((p.toList.reverse.dropWhile fun c => c = '/')).reverse
    if stripped.isEmpty then "/"
    else ((String.mk stripped).splitOn "/").getLastD ""

/-- A file system: maps a path to the file contents (as bytes), or `none`
when os.Open fails on that path (missing or unreadable file). -/
def FileSystem : Type := String → Option (List Nat)

/-- A network: takes the built request and yields the status code and the
parsed response body of the exchange. -/
def Network : Type := Request → Int × Option Json

/-- PostFormWithFile performs a POST request with form data including a
file upload (client.go lines 276-319).  The first action is os.Open on
filePath; when that fails the function returns the fileOpen error at once.
Only after a successful open does it assemble the multipart form (file
part first, then the fields), build the request through newRequest and
buildURL, set Content-Type, and run one network exchange through the
shared handler.  The second component of the result counts the network
calls made: 0 on the open failure, 1 otherwise. -/
def Client.PostFormWithFile {α : Type} (c : Client) (fs : FileSystem)
    (net : Network) (dec : Json → Option α) (wantResult : Bool)
    (path : String) (fields : List (String × String))
    (fileField filePath : String) :
    Except ClientError (Option α) × Nat :=
  match fs filePath with
  | none => (.error .fileOpen, 0)
  | some contents =>
    let form : MultipartForm :=
      { fileField := fileField
        fileName := filepathBase filePath
        fileContents := contents
        fields := fields }
    let req := c.newRequest "POST" (c.buildURL path) (some (.multipart form))
    let req := { req with
      headers := headerSet req.headers "Content-Type" "multipart/form-data" }
    let out := net req
    (doRequest dec wantResult out.1 out.2, 1)

/-- Delete performs a DELETE request (client.go lines 322-329): build the
request, run the exchange, hand the outcome to the shared handler.
wantResult = false models the nil result the side-effect-only callers
(UnfollowUser, UnblockUser) pass. -/
def Client.Delete {α : Type} (c : Client) (net : Network)
    (dec : Json → Option α) (wantResult : Bool) (path : String) :
    Except ClientError (Option α) :=
  let req := c.newRequest "DELETE" (c.buildURL path) none
  let out := net req
  doRequest dec wantResult out.1 out.2

/-- Put performs a PUT request (client.go lines 332-339), same shape as
Delete. -/
def Client.Put {α : Type} (c : Client) (net : Network)
    (dec : Json → Option α) (wantResult : Bool) (path : String) :
    Except ClientError (Option α) :=
  let req := c.newRequest "PUT" (c.buildURL path) none
  let out := net req
  doRequest dec wantResult out.1 out.2

/-- Serialization of the success envelope: the JSON object with the single
key "response" holding the payload V.  At the JSON-value abstraction,
serializing and re-parsing a value is the identity, so the envelope built
here is exactly what a body carrying that wire envelope parses to. -/
def marshalEnvelope (v : Json) : Json :=
  Json.obj [("response", v)]

/-- The best-effort error-envelope decode chain of parseErrorResponse: the
body parses as JSON, unmarshals into apiResponse with a non-nil Response,
and that Response unmarshals into errorResponse.  `none` means the error
envelope is not parseable. -/
def errorEnvelope (body : Option Json) : Option (Int × List String) :=
  body.bind fun j =>
    (unmarshalApiResponse j).bind fun raw =>
      raw.bind unmarshalErrorResponse

/-- parseErrorResponse, rephrased through errorEnvelope: the status code is
always the given one, and Code and Messages are the decoded pair when the
envelope parses and the zero values otherwise. -/
theorem parseErrorResponse_eq (s : Int) (body : Option Json) :
    parseErrorResponse s body =
      match errorEnvelope body with
      | none => ⟨s, 0, []⟩
      | some (c, m) => ⟨s, c, m⟩ := by
  cases body with
  | none => rfl
  | some j =>
    cases h1 : unmarshalApiResponse j with
    | none => simp [parseErrorResponse, errorEnvelope, h1]
    | some raw =>
      cases raw with
      | none => simp [parseErrorResponse, errorEnvelope, h1]
      | some inner =>
        cases h2 : unmarshalErrorResponse inner with
        | none => simp [parseErrorResponse, errorEnvelope, h1, h2]
        | some cm => simp [parseErrorResponse, errorEnvelope, h1, h2]

/-- C2: an APIError built with status code 401, 404, 429 or 500 satisfies
IsUnauthorized, IsNotFound and IsRateLimited exactly at the matching code
(401, 404, 429 respectively) and fails each predicate at the other three
codes, whatever the Spreaker error code and messages are. -/
theorem apiError_classification (code : Int) (msgs : List String) :
    ((⟨401, code, msgs⟩ : APIError).IsUnauthorized = true ∧
     (⟨401, code, msgs⟩ : APIError).IsNotFound = false ∧
     (⟨401, code, msgs⟩ : APIError).IsRateLimited = false) ∧
    ((⟨404, code, msgs⟩ : APIError).IsUnauthorized = false ∧
     (⟨404, code, msgs⟩ : APIError).IsNotFound = true ∧
     (⟨404, code, msgs⟩ : APIError).IsRateLimited = false) ∧
    ((⟨429, code, msgs⟩ : APIError).IsUnauthorized = false ∧
     (⟨429, code, msgs⟩ : APIError).IsNotFound = false ∧
     (⟨429, code, msgs⟩ : APIError).IsRateLimited = true) ∧
    ((⟨500, code, msgs⟩ : APIError).IsUnauthorized = false ∧
     (⟨500, code, msgs⟩ : APIError).IsNotFound = false ∧
     (⟨500, code, msgs⟩ : APIError).IsRateLimited = false) := by
  refine ⟨⟨?_, ?_, ?_⟩, ⟨?_, ?_, ?_⟩, ⟨?_, ?_, ?_⟩, ⟨?_, ?_, ?_⟩⟩ <;> rfl

/-- C7: buildURL is the plain concatenation of the base URL, a slash, the
API version and the resource path, with no slash normalization; on the
default client it maps the path of show 123 to the full v2 URL. -/
theorem buildURL_concat :
    (∀ (b v tok : String) (hc : HTTPClient) (ua : String) (p : String),
      Client.buildURL ⟨b, v, tok, hc, ua⟩ p = b ++ "/" ++ v ++ p) ∧
    Client.buildURL (NewClient "") "/shows/123" =
      "https://api.spreaker.com/v2/shows/123" := by
  constructor
  · intro b v tok hc ua p
    simp [Client.buildURL, toString, String.append_assoc]
  · rfl

/-- C9: NewClient uses base URL https://api.spreaker.com, API version v2
and a 30 second (30 * 10^9 ns) timeout; NewClientWithOptions overrides the
base URL only when the given one is non-empty and the timeout only when
strictly positive, keeping the defaults, the version and the token
otherwise. -/
theorem newClient_defaults (t b : String) (d : Int) :
    (NewClient t).BaseURL = "https://api.spreaker.com" ∧
    (NewClient t).APIVersion = "v2" ∧
    (NewClient t).HTTPClient.Timeout = 30 * 1000000000 ∧
    (NewClient t).Token = t ∧
    (NewClientWithOptions t b d).BaseURL =
      (if b = "" then "https://api.spreaker.com" else b) ∧
    (NewClientWithOptions t b d).HTTPClient.Timeout =
      (if d > 0 then d else 30 * 1000000000) ∧
    (NewClientWithOptions t b d).APIVersion = "v2" ∧
    (NewClientWithOptions t b d).Token = t := by
  refine ⟨rfl, rfl, rfl, rfl, ?_, ?_, ?_, ?_⟩ <;>
    by_cases hb : b = "" <;> by_cases hd : d > 0 <;>
      simp [NewClientWithOptions, NewClient, DefaultBaseURL, DefaultAPIVersion,
        DefaultTimeout, hb, hd]

/-- C3: for any status code at least 400 and any body, including bodies
that are not valid JSON, parseErrorResponse yields a typed APIError whose
StatusCode is the given status code, and when the error envelope is not
parseable the error degrades to error code 0 and empty messages.  The
function is total in the model, so no input can raise an unrelated
failure. -/
theorem parseErrorResponse_degrades (statusCode : Int) (body : Option Json)
    (_h400 : 400 ≤ statusCode) :
    (parseErrorResponse statusCode body).StatusCode = statusCode ∧
    (errorEnvelope body = none →
      parseErrorResponse statusCode body =
        { StatusCode := statusCode, Code := 0, Messages := [] }) := by
  constructor
  · rw [parseErrorResponse_eq]
    cases h : errorEnvelope body with
    | none => rfl
    | some cm => cases cm with | mk c m => rfl
  · intro h
    rw [parseErrorResponse_eq, h]

/-- Witness for C3 at status 500 and a body that is not valid JSON. -/
theorem parseErrorResponse_degrades_witness :
    (parseErrorResponse 500 none).StatusCode = 500 ∧
    parseErrorResponse 500 none = { StatusCode := 500, Code := 0, Messages := [] } :=
  ⟨(parseErrorResponse_degrades 500 none (by decide)).1,
   (parseErrorResponse_degrades 500 none (by decide)).2 rfl⟩

/-- C4: on a success status (below 400) with a result requested, a body
whose outer wrapper does not parse makes the shared handler fail with the
malformed-envelope error, which is not a typed APIError value. -/
theorem doRequest_malformedEnvelope {α : Type} (dec : Json → Option α)
    (statusCode : Int) (body : Option Json)
    (hst : statusCode < 400)
    (hparse : body.bind unmarshalApiResponse = none) :
    doRequest dec true statusCode body = Except.error ClientError.malformedEnvelope ∧
    ClientError.malformedEnvelope.isAPIError = false ∧
    ∀ e : APIError,
      doRequest dec true statusCode body ≠ Except.error (ClientError.api e) := by
  have hlt : ¬ statusCode ≥ 400 := by omega
  have hmain : doRequest dec true statusCode body =
      Except.error ClientError.malformedEnvelope := by
    cases body with
    | none => simp [doRequest, hlt]
    | some j =>
      have hj : unmarshalApiResponse j = none := by simpa using hparse
      simp [doRequest, hlt, hj]
  refine ⟨hmain, rfl, ?_⟩
  intro e
  rw [hmain]
  simp

/-- Witness for C4 at status 200 and a body that is not valid JSON. -/
theorem doRequest_malformedEnvelope_witness :
    doRequest (α := Json) some true 200 none =
      Except.error ClientError.malformedEnvelope :=
  (doRequest_malformedEnvelope some 200 none (by decide) rfl).1

/-- C10: in the shared handler the status-code check comes before the
nil-result early return: with a nil result (wantResult = false) an error
status still yields the typed APIError from parseErrorResponse, and a
success status yields success for every body, even one that is not valid
JSON, so the body is never parsed; Delete and Put are exactly this handler
applied to the outcome of their one exchange. -/
theorem doRequest_statusCheck_precedes_nilResult {α : Type}
    (dec : Json → Option α) (statusCode : Int) (body : Option Json) :
    (400 ≤ statusCode →
      doRequest dec false statusCode body =
        Except.error (ClientError.api (parseErrorResponse statusCode body))) ∧
    (statusCode < 400 → doRequest dec false statusCode body = Except.ok none) ∧
    (∀ (c : Client) (net : Network) (path : String),
      c.Delete net dec false path =
        doRequest dec false (net (c.newRequest "DELETE" (c.buildURL path) none)).1
          (net (c.newRequest "DELETE" (c.buildURL path) none)).2 ∧
      c.Put net dec false path =
        doRequest dec false (net (c.newRequest "PUT" (c.buildURL path) none)).1
          (net (c.newRequest "PUT" (c.buildURL path) none)).2) := by
  refine ⟨fun h => ?_, fun h => ?_, fun c net path => ⟨rfl, rfl⟩⟩
  · simp [doRequest, h]
  · have hlt : ¬ statusCode ≥ 400 := by omega
    simp [doRequest, hlt]

/-- Witness for C10 at statuses 500 and 200 with a nil result and a body
that is not valid JSON. -/
theorem doRequest_statusCheck_precedes_nilResult_witness :
    doRequest (α := Json) some false 500 none =
      Except.error (ClientError.api (parseErrorResponse 500 none)) ∧
    doRequest (α := Json) some false 200 none = Except.ok none :=
  ⟨(doRequest_statusCheck_precedes_nilResult some 500 none).1 (by decide),
   (doRequest_statusCheck_precedes_nilResult some 200 none).2.1 (by decide)⟩

/-- C8: the envelope round-trip.  Wrapping any payload value V under the
"response" key and running it back through the apiResponse unwrap of the
shared handler yields exactly V, and the caller-shape decode of the
handler then consumes exactly that V. -/
theorem envelope_roundTrip {α : Type} (dec : Json → Option α) (v : Json)
    (statusCode : Int) (hst : statusCode < 400) :
    unmarshalApiResponse (marshalEnvelope v) = some (some v) ∧
    doRequest dec true statusCode (some (marshalEnvelope v)) =
      (match dec v with
       | none => Except.error ClientError.payloadDecode
       | some x => Except.ok (some x)) := by
  have henv : unmarshalApiResponse (marshalEnvelope v) = some (some v) := by
    simp [unmarshalApiResponse, marshalEnvelope, lookupField]
  have hlt : ¬ statusCode ≥ 400 := by omega
  refine ⟨henv, ?_⟩
  simp [doRequest, hlt, henv]

/-- Witness for C8 with the payload true at status 200. -/
theorem envelope_roundTrip_witness :
    unmarshalApiResponse (marshalEnvelope (Json.bool true)) =
      some (some (Json.bool true)) ∧
    doRequest (α := Json) some true 200 (some (marshalEnvelope (Json.bool true))) =
      Except.ok (some (Json.bool true)) :=
  ⟨(envelope_roundTrip (α := Json) some (Json.bool true) 200 (by decide)).1,
   (envelope_roundTrip (α := Json) some (Json.bool true) 200 (by decide)).2⟩

/-- C1: whenever a paginated GET decodes, in order, an outer envelope with
inner payload, a paginatedResponse carrying items bytes and a next_url
string, and the items list, the returned page carries those items, carries
next_url unmodified in NextURL, and sets HasMore to the Boolean
next_url != "", which is true exactly when next_url is non-empty; in
particular an empty next_url gives HasMore = false. -/
theorem getPaginated_hasMore_iff_nextURL {α : Type} (decItem : Json → Option α)
    (statusCode : Int) (j inner : Json) (itemsRaw : Option Json)
    (nextURL : String) (items : List α)
    (hst : statusCode < 400)
    (henv : unmarshalApiResponse j = some (some inner))
    (hpag : unmarshalPaginatedResponse inner = some (itemsRaw, nextURL))
    (hitems : unmarshalItems decItem itemsRaw = some items) :
    GetPaginated decItem statusCode (some j) =
      Except.ok { Items := items, NextURL := nextURL, HasMore := nextURL != "" } ∧
    ((nextURL != "") = true ↔ nextURL ≠ "") ∧
    (nextURL = "" → (nextURL != "") = false) := by
  have hlt : ¬ statusCode ≥ 400 := by omega
  refine ⟨?_, ?_, ?_⟩
  · simp [GetPaginated, hlt, henv, hpag, hitems]
  · simp
  · intro h
    simp [h]

/-- Witness for C1: a page whose next_url carries a last_id cursor decodes
with HasMore = true and the URL passed through unmodified. -/
theorem getPaginated_hasMore_iff_nextURL_witness :
    GetPaginated (α := Json) some 200
        (some (Json.obj [("response",
          Json.obj [("items", Json.arr [Json.num 1, Json.num 2]),
                    ("next_url",
                     Json.str "https://api.spreaker.com/v2/shows?last_id=42")])])) =
      Except.ok { Items := [Json.num 1, Json.num 2],
                  NextURL := "https://api.spreaker.com/v2/shows?last_id=42",
                  HasMore := "https://api.spreaker.com/v2/shows?last_id=42" != "" } :=
  (getPaginated_hasMore_iff_nextURL (α := Json) some 200
    (Json.obj [("response",
      Json.obj [("items", Json.arr [Json.num 1, Json.num 2]),
                ("next_url",
                 Json.str "https://api.spreaker.com/v2/shows?last_id=42")])])
    (Json.obj [("items", Json.arr [Json.num 1, Json.num 2]),
               ("next_url",
                Json.str "https://api.spreaker.com/v2/shows?last_id=42")])
    (some (Json.arr [Json.num 1, Json.num 2]))
    "https://api.spreaker.com/v2/shows?last_id=42"
    [Json.num 1, Json.num 2]
    (by decide) rfl rfl rfl).1

/-- C5: when opening the file fails, PostFormWithFile returns the local
fileOpen error, which is not a typed APIError, and the network call count
is zero: the function never reaches request building or the exchange. -/
theorem postFormWithFile_localFailure {α : Type} (c : Client) (fs : FileSystem)
    (net : Network) (dec : Json → Option α) (wantResult : Bool)
    (path : String) (fields : List (String × String))
    (fileField filePath : String)
    (hopen : fs filePath = none) :
    c.PostFormWithFile fs net dec wantResult path fields fileField filePath =
      (Except.error ClientError.fileOpen, 0) ∧
    ClientError.fileOpen.isAPIError = false ∧
    ∀ e : APIError,
      (c.PostFormWithFile fs net dec wantResult path fields fileField filePath).1 ≠
        Except.error (ClientError.api e) := by
  have hmain :
      c.PostFormWithFile fs net dec wantResult path fields fileField filePath =
        (Except.error ClientError.fileOpen, 0) := by
    simp [Client.PostFormWithFile, hopen]
  refine ⟨hmain, rfl, ?_⟩
  intro e
  rw [hmain]
  simp

/-- Witness for C5 on an empty file system and a missing mp3 path. -/
theorem postFormWithFile_localFailure_witness :
    (NewClient "").PostFormWithFile (α := Json) (fun _ => none)
        (fun _ => (200, none)) some true "/shows/1/episodes" [] "media_file"
        "/missing.mp3" =
      (Except.error ClientError.fileOpen, 0) :=
  (postFormWithFile_localFailure (NewClient "") (fun _ => none)
    (fun _ => (200, none)) some true "/shows/1/episodes" [] "media_file"
    "/missing.mp3" rfl).1

/-- C6: every request built by newRequest carries the User-Agent of the
client, which every constructor fixes to the identifier spreaker-cli/1.0,
and Accept application/json; the Authorization header is Bearer plus the
token exactly when the token is non-empty, and absent when it is empty. -/
theorem newRequest_headers (c : Client) (method urlStr : String)
    (body : Option RequestBody) :
    headerGet (c.newRequest method urlStr body).headers "User-Agent" =
      some c.UserAgent ∧
    headerGet (c.newRequest method urlStr body).headers "Accept" =
      some "application/json" ∧
    (c.Token ≠ "" →
      headerGet (c.newRequest method urlStr body).headers "Authorization" =
        some ("Bearer " ++ c.Token)) ∧
    (c.Token = "" →
      headerGet (c.newRequest method urlStr body).headers "Authorization" = none) ∧
    (∀ t : String, (NewClient t).UserAgent = "spreaker-cli/1.0") ∧
    (∀ (t b : String) (d : Int),
      (NewClientWithOptions t b d).UserAgent = "spreaker-cli/1.0") := by
  by_cases h : c.Token = ""
  · refine ⟨?_, ?_, ?_, ?_, fun t => rfl, fun t b d => ?_⟩
    · simp [Client.newRequest, headerSet, headerGet, h]
    · simp [Client.newRequest, headerSet, headerGet, h]
    · intro hne
      exact absurd h hne
    · intro _
      simp [Client.newRequest, headerSet, headerGet, h]
    · by_cases hb : b = "" <;> by_cases hd : d > 0 <;>
        simp [NewClientWithOptions, NewClient, hb, hd]
  · refine ⟨?_, ?_, ?_, ?_, fun t => rfl, fun t b d => ?_⟩
    · simp [Client.newRequest, headerSet, headerGet, h]
    · simp [Client.newRequest, headerSet, headerGet, h]
    · intro _
      simp [Client.newRequest, headerSet, headerGet, h]
    · intro he
      exact absurd he h
    · by_cases hb : b = "" <;> by_cases hd : d > 0 <;>
        simp [NewClientWithOptions, NewClient, hb, hd]

/-- Witness for C6: the Authorization header on an authenticated and an
unauthenticated default client. -/
theorem newRequest_headers_witness :
    headerGet ((NewClient "tok").newRequest "GET" "u" none).headers
        "Authorization" = some ("Bearer " ++ (NewClient "tok").Token) ∧
    headerGet ((NewClient "").newRequest "GET" "u" none).headers
        "Authorization" = none :=
  ⟨(newRequest_headers (NewClient "tok") "GET" "u" none).2.2.1 (by decide),
   (newRequest_headers (NewClient "") "GET" "u" none).2.2.2.1 rfl⟩

end Spreaker
